import Mathlib

/-!
Shallow embedding of the movie-week voting server: the SQLite-backed
store (src/server/src/db/database.ts), the HTTP route handlers over it
(src/server/src/routes/movies.ts) and the OMDb catalog search service.
Tables are lists of rows, the in-process LRU cache is an association
list in least-recently-used-first order, and each operation is a pure
state-passing function mirroring the TypeScript line by line.
-/

namespace MovieWeek

/-- Candidate status column: CHECK(status IN (active, winner)). -/
inductive MStatus where
  | active
  | winner
deriving DecidableEq, Repr

/-- A row of the movies table. -/
structure Movie where
  id : String
  title : String
  year : String
  poster : String
  votes : Nat
  addedAt : Nat
  status : MStatus
deriving DecidableEq, Repr

/-- A row of the winners table; id is the AUTOINCREMENT key. -/
structure Winner where
  id : Nat
  movieId : String
  title : String
  year : String
  poster : String
  finalVotes : Nat
  wonAt : Nat
deriving DecidableEq, Repr

/-! ### LRU cache (class LRUCache, maxSize 50 for movieByIdCache)

A JavaScript Map keeps insertion order, so the model is a list of
entries with the oldest first and the most recently used last. -/

abbrev IdCache := List (String × Option Movie)

/-- Map.get: the stored value of a key, if present. -/
def lruLookup (c : IdCache) (k : String) : Option (Option Movie) :=
  (c.find? (fun e => decide (e.1 = k))).map (fun e => e.2)

/-- Map.delete: remove the entry of a key. -/
def lruErase (c : IdCache) (k : String) : IdCache :=
  c.filter (fun e => decide (¬ e.1 = k))

/-- LRUCache.get: on a hit, move the entry to the most-recent end and
return its stored value; on a miss return nothing. -/
def lruGet (c : IdCache) (k : String) : Option (Option Movie) × IdCache :=
  match lruLookup c k with
  | none => (none, c)
  | some v => (some v, lruErase c k ++ [(k, v)])

/-- LRUCache.set: delete the key, append the entry, evict the oldest
entry when the size passes maxSize = 50. -/
def lruSet (c : IdCache) (k : String) (v : Option Movie) : IdCache :=
  let c1 := lruErase c k ++ [(k, v)]
  if 50 < c1.length then c1.tail else c1

/-! ### SQL statements as pure queries over the table lists -/

/-- SELECT * FROM movies WHERE id = ? (id is the primary key). -/
def queryMovieById (dbm : List Movie) (id : String) : Option Movie :=
  dbm.find? (fun r => decide (r.id = id))

/-- The ORDER BY votes DESC, addedAt ASC key of getAllActiveMovies. -/
def movieOrd (a b : Movie) : Prop :=
  b.votes < a.votes ∨ (a.votes = b.votes ∧ a.addedAt ≤ b.addedAt)

instance : DecidableRel movieOrd := fun a b => by
  unfold movieOrd; infer_instance

instance : IsTotal Movie movieOrd :=
  ⟨by intro a b; unfold movieOrd; omega⟩

instance : IsTrans Movie movieOrd :=
  ⟨by intro a b c hab hbc; unfold movieOrd at *; omega⟩

/-- The ORDER BY wonAt DESC key of getAllWinners. -/
def winnerOrd (a b : Winner) : Prop :=
  b.wonAt ≤ a.wonAt

instance : DecidableRel winnerOrd := fun a b => by
  unfold winnerOrd; infer_instance

instance : IsTotal Winner winnerOrd :=
  ⟨by intro a b; unfold winnerOrd; omega⟩

instance : IsTrans Winner winnerOrd :=
  ⟨by intro a b c hab hbc; unfold winnerOrd at *; omega⟩

/-- SELECT * FROM movies WHERE status = active ORDER BY votes DESC, addedAt ASC. -/
def queryAllActive (dbm : List Movie) : List Movie :=
  List.insertionSort movieOrd (dbm.filter (fun r => decide (r.status = MStatus.active)))

/-- SELECT * FROM winners ORDER BY wonAt DESC. -/
def queryWinners (dbw : List Winner) : List Winner :=
  List.insertionSort winnerOrd dbw

/-- UPDATE movies SET votes = ? WHERE id = ?. -/
def updateVotesStmt (dbm : List Movie) (id : String) (newVotes : Nat) : List Movie :=
  dbm.map (fun r => if r.id = id then { r with votes := newVotes } else r)

/-- UPDATE movies SET status = winner, votes = votes + 1 WHERE id = ?. -/
def updateStatusStmt (dbm : List Movie) (id : String) : List Movie :=
  dbm.map (fun r =>
    if r.id = id then { r with status := MStatus.winner, votes := r.votes + 1 } else r)

/-! ### MovieDatabase state and operations -/

/-- The whole MovieDatabase: the two SQLite tables, the AUTOINCREMENT
counter of the winners table, and the three in-memory caches. -/
structure SysState where
  dbm : List Movie
  dbw : List Winner
  nextWinnerId : Nat
  activeCache : Option (List Movie)
  winnersCache : Option (List Winner)
  idCache : IdCache
deriving DecidableEq, Repr

def initState : SysState :=
  { dbm := [], dbw := [], nextWinnerId := 1,
    activeCache := none, winnersCache := none, idCache := [] }

/-- MovieDatabase.invalidateCache. -/
def invalidateCache (st : SysState) : SysState :=
  { st with activeCache := none, idCache := [] }

/-- MovieDatabase.getMovieById: cache hit on a stored row, otherwise
query the table and cache the result (a stored undefined never counts
as a hit, exactly as cached !== undefined behaves). -/
def dbGetMovieById (st : SysState) (id : String) : Option Movie × SysState :=
  match lruGet st.idCache id with
  | (some (some m), c1) => (some m, { st with idCache := c1 })
  | (_, c1) =>
    let movie := queryMovieById st.dbm id
    (movie, { st with idCache := lruSet c1 id movie })

/-- MovieDatabase.getAllActiveMovies with its result-set cache. -/
def dbGetAllActiveMovies (st : SysState) : List Movie × SysState :=
  match st.activeCache with
  | some l => (l, st)
  | none =>
    let movies := queryAllActive st.dbm
    (movies, { st with activeCache := some movies })

/-- MovieDatabase.getAllWinners with its result-set cache. -/
def dbGetAllWinners (st : SysState) : List Winner × SysState :=
  match st.winnersCache with
  | some l => (l, st)
  | none =>
    let winners := queryWinners st.dbw
    (winners, { st with winnersCache := some winners })

/-- MovieDatabase.declareWinner. The two SQL statements are separate
autocommitted writes; appendOk says whether the INSERT INTO winners
succeeds, and on failure the thrown error propagates with the movies
UPDATE already committed and no cache invalidation run. -/
def declareWinnerF (st : SysState) (id : String) (now : Nat) (appendOk : Bool) :
    Except String Movie × SysState :=
  match dbGetMovieById st id with
  | (none, st1) => (Except.error "Movie not found", st1)
  | (some movie, st1) =>
    let st2 := { st1 with dbm := updateStatusStmt st1.dbm id }
    if appendOk then
      let w : Winner :=
        { id := st2.nextWinnerId, movieId := movie.id, title := movie.title,
          year := movie.year, poster := movie.poster,
          finalVotes := movie.votes + 1, wonAt := now }
      let st3 := { st2 with dbw := st2.dbw ++ [w], nextWinnerId := st2.nextWinnerId + 1 }
      (Except.ok { movie with votes := movie.votes + 1, status := MStatus.winner },
       { invalidateCache st3 with winnersCache := none })
    else
      (Except.error "winners insert failed", st2)

/-- MovieDatabase.incrementVote, with the same appendOk parameter
threaded to declareWinner. A null return is Except.ok none. -/
def dbIncrementVoteF (st : SysState) (id : String) (now : Nat) (appendOk : Bool) :
    Except String (Option Movie) × SysState :=
  match dbGetMovieById st id with
  | (some movie, st1) =>
    if movie.status = MStatus.active then
      let newVotes := movie.votes + 1
      if 10 ≤ newVotes then
        match declareWinnerF st1 id now appendOk with
        | (Except.ok m, st2) => (Except.ok (some m), st2)
        | (Except.error e, st2) => (Except.error e, st2)
      else
        let st2 := invalidateCache { st1 with dbm := updateVotesStmt st1.dbm id newVotes }
        (Except.ok (some { movie with votes := newVotes }), st2)
    else
      (Except.ok none, st1)
  | (none, st1) => (Except.ok none, st1)

/-- MovieDatabase.incrementVote in the failure-free run. -/
def dbIncrementVote (st : SysState) (id : String) (now : Nat) :
    Except String (Option Movie) × SysState :=
  dbIncrementVoteF st id now true

/-- MovieDatabase.addMovie. The INSERT throws on a duplicate primary
key; otherwise the row is appended with votes 0 and status active. -/
def dbAddMovie (st : SysState) (id title year poster : String) (now : Nat) :
    Except String Movie × SysState :=
  if st.dbm.any (fun r => decide (r.id = id)) then
    (Except.error "UNIQUE constraint failed: movies.id", st)
  else
    let newMovie : Movie :=
      { id := id, title := title, year := year, poster := poster,
        votes := 0, addedAt := now, status := MStatus.active }
    (Except.ok newMovie, invalidateCache { st with dbm := st.dbm ++ [newMovie] })

/-- MovieDatabase.deleteMovie: DELETE FROM movies WHERE id = ? AND
status = active; the cache is invalidated only when a row was hit. -/
def dbDeleteMovie (st : SysState) (id : String) : Bool × SysState :=
  let hit := st.dbm.any (fun r => decide (r.id = id ∧ r.status = MStatus.active))
  let st1 := { st with
    dbm := st.dbm.filter (fun r => decide (¬ (r.id = id ∧ r.status = MStatus.active))) }
  if hit then (true, invalidateCache st1) else (false, st1)

/-- MovieDatabase.clearAllMovies: DELETE FROM movies deletes every row
of the movies table, winner rows included. -/
def dbClearAllMovies (st : SysState) : SysState :=
  invalidateCache { st with dbm := [] }

/-- MovieDatabase.clearAllWinners: DELETE FROM winners, then only the
winners cache is invalidated. -/
def dbClearAllWinners (st : SysState) : SysState :=
  { st with dbw := [], winnersCache := none }

/-! ### Route handlers (src/server/src/routes/movies.ts) -/

/-- The responses of POST /api/movies. -/
inductive AddResp where
  | badRequest
  | votedExisting (m : Movie) (isWinner : Bool)
  | voteFailed
  | conflict
  | created (m : Movie)
  | serverError (msg : String)
deriving DecidableEq, Repr

/-- The responses of POST /api/movies/:id/vote. -/
inductive VoteResp where
  | voted (m : Movie) (isWinner : Bool)
  | notFound (msg : String)
  | serverError (msg : String)
deriving DecidableEq, Repr

/-- POST /api/movies: validate the four fields, then branch on the
existing row; an existing active row gets an implied vote, a winner
row gets a 409 conflict, and otherwise the movie is created. When the
implied vote promotes, the handler reads the full winners list. -/
def addCandidateR (st : SysState) (id title year poster : String) (now : Nat) :
    AddResp × SysState :=
  if id = "" ∨ title = "" ∨ year = "" ∨ poster = "" then
    (AddResp.badRequest, st)
  else
    match dbGetMovieById st id with
    | (some m, st1) =>
      if m.status = MStatus.active then
        match dbIncrementVote st1 id now with
        | (Except.error e, st2) => (AddResp.serverError e, st2)
        | (Except.ok none, st2) => (AddResp.voteFailed, st2)
        | (Except.ok (some um), st2) =>
          if um.status = MStatus.winner then
            (AddResp.votedExisting um true, (dbGetAllWinners st2).2)
          else
            (AddResp.votedExisting um false, st2)
      else
        (AddResp.conflict, st1)
    | (none, st1) =>
      match dbAddMovie st1 id title year poster now with
      | (Except.ok m, st2) => (AddResp.created m, st2)
      | (Except.error e, st2) => (AddResp.serverError e, st2)

/-- POST /api/movies/:id/vote: a null increment maps to the single 404
signal; a promoting vote additionally reads the full winners list. -/
def castVoteR (st : SysState) (id : String) (now : Nat) : VoteResp × SysState :=
  match dbIncrementVote st id now with
  | (Except.error e, st1) => (VoteResp.serverError e, st1)
  | (Except.ok none, st1) => (VoteResp.notFound "Movie not found or already won", st1)
  | (Except.ok (some m), st1) =>
    if m.status = MStatus.winner then
      (VoteResp.voted m true, (dbGetAllWinners st1).2)
    else
      (VoteResp.voted m false, st1)

/-! ### OMDb catalog search (OMDbService.searchMovies and getApiKey)

The axios call is modelled by an upstream outcome parameter: the
response data on success, or the kind of axios error thrown. -/

structure OMDbMovieSearchResult where
  imdbID : String
  title : String
  year : String
  poster : String
deriving DecidableEq, Repr

/-- The parsed OMDb response body. -/
structure OMDbSearchResponse where
  response : String
  search : Option (List OMDbMovieSearchResult)
  totalResults : Option String
deriving DecidableEq, Repr

/-- What the axios GET did: returned data, timed out (ECONNABORTED),
failed with an HTTP status, or failed in transport. -/
inductive UpstreamOutcome where
  | ok (data : OMDbSearchResponse)
  | timeout
  | httpError (status : Nat) (msg : String)
  | axiosError (msg : String)
deriving DecidableEq, Repr

/-- The distinct errors searchMovies can throw. -/
inductive SearchError where
  | notConfigured
  | emptyQuery
  | timedOut
  | invalidKey
  | apiError (msg : String)
deriving DecidableEq, Repr

/-- The message carried by each thrown error, as in the source. -/
def SearchError.message : SearchError → String
  | notConfigured => "OMDb API key is not configured"
  | emptyQuery => "Search query cannot be empty"
  | timedOut => "OMDb API request timed out"
  | invalidKey => "Invalid OMDb API key"
  | apiError msg => "OMDb API error: " ++ msg

structure SearchOk where
  results : List OMDbMovieSearchResult
  totalResults : Nat
deriving DecidableEq, Repr

/-- Number.parseInt on the numeric totalResults strings OMDb sends. -/
def parseIntD (s : String) : Nat :=
  s.toNat?.getD 0

/-- Whitespace characters removed by the JavaScript string trim. -/
def isWS (c : Char) : Bool :=
  c = ' ' ∨ c = '\t' ∨ c = '\n' ∨ c = '\r'

/-- query.trim(): strip whitespace from both ends. -/
def jsTrim (s : String) : String :=
  String.mk ((s.data.dropWhile isWS).reverse.dropWhile isWS).reverse

/-- OMDbService.searchMovies: the api key read (throwing when unset or
empty, before anything else), the empty-query guard, and the mapping of
the axios outcome to a result or a distinct error. -/
def searchMovies (apiKey : Option String) (query : String) (page : Nat)
    (outcome : UpstreamOutcome) : Except SearchError SearchOk :=
  match apiKey with
  | none => Except.error SearchError.notConfigured
  | some k =>
    if k = "" then Except.error SearchError.notConfigured
    else if (jsTrim query).length = 0 then Except.error SearchError.emptyQuery
    else
      match outcome with
      | UpstreamOutcome.timeout => Except.error SearchError.timedOut
      | UpstreamOutcome.httpError status msg =>
        if status = 401 then Except.error SearchError.invalidKey
        else Except.error (SearchError.apiError msg)
      | UpstreamOutcome.axiosError msg => Except.error (SearchError.apiError msg)
      | UpstreamOutcome.ok data =>
        if data.response = "False" then
          Except.ok { results := [], totalResults := 0 }
        else
          Except.ok { results := data.search.getD [],
                      totalResults := parseIntD (data.totalResults.getD "0") }

/-! ### The public operations as a state machine -/

/-- One externally triggered operation; timestamps are the Date.now()
values observed by the operation. -/
inductive Op where
  | add (id title year poster : String) (now : Nat)
  | vote (id : String) (now : Nat)
  | del (id : String)
  | clearActive
  | clearWinners
  | readActive
  | readWinners
  | readById (id : String)
deriving DecidableEq, Repr

def applyOp (st : SysState) (op : Op) : SysState :=
  match op with
  | Op.add id title year poster now => (addCandidateR st id title year poster now).2
  | Op.vote id now => (castVoteR st id now).2
  | Op.del id => (dbDeleteMovie st id).2
  | Op.clearActive => dbClearAllMovies st
  | Op.clearWinners => dbClearAllWinners st
  | Op.readActive => (dbGetAllActiveMovies st).2
  | Op.readWinners => (dbGetAllWinners st).2
  | Op.readById id => (dbGetMovieById st id).2

def applyTrace (ops : List Op) : SysState :=
  ops.foldl applyOp initState

def Reachable (st : SysState) : Prop :=
  ∃ ops, applyTrace ops = st

/-! ### Invariants of reachable states -/

/-- The state invariant: primary-key uniqueness, the vote bounds the
threshold rule maintains, and consistency of every cache entry with a
direct query of the tables. -/
structure Inv (st : SysState) : Prop where
  idsNodup : (st.dbm.map Movie.id).Nodup
  activeLe9 : ∀ m ∈ st.dbm, m.status = MStatus.active → m.votes ≤ 9
  winnersFinal10 : ∀ w ∈ st.dbw, w.finalVotes = 10
  cacheActive : ∀ l, st.activeCache = some l → l = queryAllActive st.dbm
  cacheWinners : ∀ l, st.winnersCache = some l → l = queryWinners st.dbw
  cacheById : ∀ k v, (k, v) ∈ st.idCache → v = queryMovieById st.dbm k
  cacheKeys : (st.idCache.map Prod.fst).Nodup
  cacheSize : st.idCache.length ≤ 50

/-- Every winner record points at a movies row that still exists with
status winner. This holds as long as clearAllMovies is never run. -/
def WinnersBacked (st : SysState) : Prop :=
  ∀ w ∈ st.dbw, ∃ m ∈ st.dbm, m.id = w.movieId ∧ m.status = MStatus.winner

/-- A sample trace: add one candidate, then vote it n times. -/
def voteTrace (n : Nat) : List Op :=
  Op.add "m1" "T" "2000" "p" 0 :: List.replicate n (Op.vote "m1" 1)

/-- Promote a candidate, clear the whole movies table, re-add the same
identifier: the winners table still holds its record. -/
def clearReaddTrace : List Op :=
  (Op.add "m1" "T" "2000" "p" 0 :: List.replicate 10 (Op.vote "m1" 1)) ++
    [Op.clearActive, Op.add "m1" "T" "2000" "p" 5]

/-- Add a candidate and pull it into the id cache. -/
def cachedReadTrace : List Op :=
  [Op.add "m1" "T" "2000" "p" 0, Op.readById "m1"]

/-- The state with one active candidate at nine votes. -/
def st9 : SysState := applyTrace (voteTrace 9)

/-- Promote one candidate, then add a second, without ever clearing. -/
def disjTrace : List Op := voteTrace 10 ++ [Op.add "m2" "T" "2000" "p" 20]

lemma lruErase_mem {c : IdCache} {k : String} {e : String × Option Movie}
    (h : e ∈ lruErase c k) : e ∈ c ∧ ¬ e.1 = k := by
  unfold lruErase at h
  have h2 := List.mem_filter.mp h
  exact ⟨h2.1, by simpa using h2.2⟩

lemma lruErase_keys_not_mem (c : IdCache) (k : String) :
    k ∉ (lruErase c k).map Prod.fst := by
  intro h
  rcases List.mem_map.mp h with ⟨e, he, hek⟩
  exact (lruErase_mem he).2 hek

lemma lruErase_sublist (c : IdCache) (k : String) : (lruErase c k).Sublist c :=
  List.filter_sublist c

lemma lruLookup_some {c : IdCache} {k : String} {v : Option Movie}
    (h : lruLookup c k = some v) : (k, v) ∈ c := by
  unfold lruLookup at h
  rcases Option.map_eq_some'.mp h with ⟨e, he, hev⟩
  have hk : e.1 = k := by simpa using List.find?_some he
  have hm : e ∈ c := List.mem_of_find?_eq_some he
  have : e = (k, v) := by
    cases e; simp_all
  rw [this] at hm; exact hm

lemma lruLookup_none {c : IdCache} {k : String}
    (h : lruLookup c k = none) : ∀ v : Option Movie, (k, v) ∉ c := by
  intro v hv
  unfold lruLookup at h
  rw [Option.map_eq_none'] at h
  rw [List.find?_eq_none] at h
  exact h _ hv (by simp)

lemma lruErase_length_lt {c : IdCache} {k : String} {v : Option Movie}
    (h : (k, v) ∈ c) : (lruErase c k).length < c.length := by
  induction c with
  | nil => cases h
  | cons e tl ih =>
    unfold lruErase
    rcases List.mem_cons.mp h with he | htl
    · rw [List.filter_cons]
      have : (decide (¬ e.1 = k)) = false := by simp [← he]
      rw [this]
      simp only [List.length_cons]
      exact Nat.lt_succ_of_le (List.length_filter_le _ _)
    · rw [List.filter_cons]
      by_cases hek : e.1 = k
      · have : (decide (¬ e.1 = k)) = false := by simp [hek]
        rw [this]
        simp only [List.length_cons]
        exact Nat.lt_succ_of_le (List.length_filter_le _ _)
      · have : (decide (¬ e.1 = k)) = true := by simp [hek]
        rw [this]
        simp only [List.length_cons]
        exact Nat.succ_lt_succ (ih htl)

lemma lruErase_append_last {c2 : IdCache} {k : String} {v : Option Movie}
    (hk : k ∉ c2.map Prod.fst) : lruErase (c2 ++ [(k, v)]) k = c2 := by
  unfold lruErase
  rw [List.filter_append]
  have h2 : List.filter (fun e => decide (¬ e.1 = k)) [(k, v)] = [] := by simp
  have h1 : List.filter (fun e => decide (¬ e.1 = k)) c2 = c2 := by
    rw [List.filter_eq_self]
    intro e he
    simp only [decide_eq_true_eq]
    intro hek
    exact hk (List.mem_map.mpr ⟨e, he, hek⟩)
  rw [h1, h2, List.append_nil]

lemma lruLookup_append_last {c2 : IdCache} {k : String} {v : Option Movie}
    (hk : k ∉ c2.map Prod.fst) : lruLookup (c2 ++ [(k, v)]) k = some v := by
  unfold lruLookup
  rw [List.find?_append]
  have h1 : c2.find? (fun e => decide (e.1 = k)) = none := by
    rw [List.find?_eq_none]
    intro e he
    simp only [decide_eq_true_eq]
    intro hek
    exact hk (List.mem_map.mpr ⟨e, he, hek⟩)
  rw [h1]
  simp

lemma lruLookup_none_erase {c : IdCache} {k : String}
    (h : lruLookup c k = none) : lruErase c k = c := by
  unfold lruLookup at h
  rw [Option.map_eq_none'] at h
  rw [List.find?_eq_none] at h
  unfold lruErase
  rw [List.filter_eq_self]
  intro e he
  simpa using h e he

lemma keys_sublist_of_sublist {c1 c2 : IdCache} (h : c1.Sublist c2) :
    (c1.map Prod.fst).Sublist (c2.map Prod.fst) :=
  List.Sublist.map _ h

/-- getMovieById always returns the direct query result and only
reorders, trims or extends the id cache, leaving the entry for the
queried id at the most-recent end. -/
lemma dbGetMovieById_spec (st : SysState) (id : String) (h : Inv st) :
    ∃ c2 : IdCache,
      dbGetMovieById st id =
        (queryMovieById st.dbm id,
         { st with idCache := c2 ++ [(id, queryMovieById st.dbm id)] }) ∧
      (∀ e ∈ c2, e ∈ st.idCache) ∧
      id ∉ c2.map Prod.fst ∧
      (c2.map Prod.fst).Nodup ∧
      c2.length ≤ 49 := by
  rcases hl : lruLookup st.idCache id with _ | ⟨_ | m⟩
  · -- miss: query the table, cache the result, converting a full cache
    have hbase : id ∉ st.idCache.map Prod.fst := by
      intro hmem
      rcases List.mem_map.mp hmem with ⟨e, he, hek⟩
      have he2 : (id, e.2) ∈ st.idCache := by
        have hpe : (id, e.2) = e := Prod.ext hek.symm rfl
        rw [hpe]; exact he
      exact lruLookup_none hl e.2 he2
    by_cases hbig : 50 < st.idCache.length + 1
    · have hne : st.idCache ≠ [] := by
        intro hnil; rw [hnil] at hbig; simp at hbig
      refine ⟨st.idCache.tail, ?_, ?_, ?_, ?_, ?_⟩
      · simp only [dbGetMovieById, lruGet, hl, lruSet, lruLookup_none_erase hl]
        rw [if_pos (by simp only [List.length_append, List.length_cons,
              List.length_nil]; omega)]
        rw [List.tail_append_of_ne_nil hne]
      · exact fun e he => (List.tail_sublist _).subset he
      · exact fun hmem => hbase ((keys_sublist_of_sublist (List.tail_sublist _)).subset hmem)
      · exact (keys_sublist_of_sublist (List.tail_sublist _)).nodup h.cacheKeys
      · have := h.cacheSize
        have hnn : st.idCache.length = 50 := by omega
        simp [List.length_tail, hnn]
    · refine ⟨st.idCache, ?_, ?_, ?_, ?_, ?_⟩
      · simp only [dbGetMovieById, lruGet, hl, lruSet, lruLookup_none_erase hl]
        rw [if_neg (by simp only [List.length_append, List.length_cons,
              List.length_nil]; omega)]
      · exact fun e he => he
      · exact hbase
      · exact h.cacheKeys
      · omega
  · -- hit on a stored undefined: fall through to the query, re-cache
    have hmem : (id, (none : Option Movie)) ∈ st.idCache := lruLookup_some hl
    have hq : queryMovieById st.dbm id = none := (h.cacheById id none hmem).symm
    refine ⟨lruErase st.idCache id, ?_, ?_, ?_, ?_, ?_⟩
    · simp only [dbGetMovieById, lruGet, hl, lruSet,
        lruErase_append_last (lruErase_keys_not_mem st.idCache id), hq]
      have hlt : (lruErase st.idCache id).length < st.idCache.length :=
        lruErase_length_lt hmem
      have h50 := h.cacheSize
      rw [if_neg (by simp only [List.length_append, List.length_cons, List.length_nil]; omega)]
    · exact fun e he => (lruErase_mem he).1
    · exact lruErase_keys_not_mem st.idCache id
    · exact (keys_sublist_of_sublist (lruErase_sublist st.idCache id)).nodup h.cacheKeys
    · have hlt : (lruErase st.idCache id).length < st.idCache.length :=
        lruErase_length_lt hmem
      have := h.cacheSize
      omega
  · -- hit on a stored row
    have hmem : (id, some m) ∈ st.idCache := lruLookup_some hl
    have hq : queryMovieById st.dbm id = some m := (h.cacheById id (some m) hmem).symm
    refine ⟨lruErase st.idCache id, ?_, ?_, ?_, ?_, ?_⟩
    · simp only [dbGetMovieById, lruGet, hl, hq]
    · exact fun e he => (lruErase_mem he).1
    · exact lruErase_keys_not_mem st.idCache id
    · exact (keys_sublist_of_sublist (lruErase_sublist st.idCache id)).nodup h.cacheKeys
    · have hlt : (lruErase st.idCache id).length < st.idCache.length :=
        lruErase_length_lt hmem
      have := h.cacheSize
      omega

/-- A second getMovieById right after a first one is a no-op on the
state and returns the same row. -/
lemma dbGetMovieById_stable (st : SysState) (id : String) (c2 : IdCache)
    (hc : st.idCache = c2 ++ [(id, queryMovieById st.dbm id)])
    (hk : id ∉ c2.map Prod.fst)
    (hlen : st.idCache.length ≤ 50) :
    dbGetMovieById st id = (queryMovieById st.dbm id, st) := by
  rcases hq : queryMovieById st.dbm id with _ | m
  · have hl : lruLookup st.idCache id = some none := by
      rw [hc, hq]; exact lruLookup_append_last hk
    have herase : lruErase st.idCache id = c2 := by
      rw [hc, hq]; exact lruErase_append_last hk
    simp only [dbGetMovieById, lruGet, hl, lruSet, hq]
    rw [lruErase_append_last (lruErase_keys_not_mem st.idCache id), herase]
    have hlc : (c2 ++ [(id, (none : Option Movie))]).length = st.idCache.length := by
      rw [hc, hq]
    rw [if_neg (by omega)]
    have hcc : c2 ++ [(id, (none : Option Movie))] = st.idCache := by rw [hc, hq]
    rw [hcc]
  · have hl : lruLookup st.idCache id = some (some m) := by
      rw [hc, hq]; exact lruLookup_append_last hk
    simp only [dbGetMovieById, lruGet, hl]
    have herase : lruErase st.idCache id = c2 := by
      rw [hc, hq]; exact lruErase_append_last hk
    rw [herase, ← hq, ← hc]

lemma dbGetAllActiveMovies_fst {st : SysState} (h : Inv st) :
    (dbGetAllActiveMovies st).1 = queryAllActive st.dbm := by
  rcases hc : st.activeCache with _ | l
  · simp [dbGetAllActiveMovies, hc]
  · simp only [dbGetAllActiveMovies, hc]
    exact h.cacheActive l hc

lemma dbGetAllActiveMovies_snd (st : SysState) :
    (dbGetAllActiveMovies st).2 =
      { st with activeCache := some (dbGetAllActiveMovies st).1 } := by
  rcases hc : st.activeCache with _ | l
  · simp [dbGetAllActiveMovies, hc]
  · simp only [dbGetAllActiveMovies, hc]
    cases st
    simp_all

lemma dbGetAllWinners_fst {st : SysState} (h : Inv st) :
    (dbGetAllWinners st).1 = queryWinners st.dbw := by
  rcases hc : st.winnersCache with _ | l
  · simp [dbGetAllWinners, hc]
  · simp only [dbGetAllWinners, hc]
    exact h.cacheWinners l hc

lemma dbGetAllWinners_snd (st : SysState) :
    (dbGetAllWinners st).2 =
      { st with winnersCache := some (dbGetAllWinners st).1 } := by
  rcases hc : st.winnersCache with _ | l
  · simp [dbGetAllWinners, hc]
  · simp only [dbGetAllWinners, hc]
    cases st
    simp_all

/-! ### Behaviour of the two UPDATE statements -/

lemma updateVotesStmt_map_id (dbm : List Movie) (id : String) (v : Nat) :
    (updateVotesStmt dbm id v).map Movie.id = dbm.map Movie.id := by
  unfold updateVotesStmt
  rw [List.map_map]
  apply List.map_congr_left
  intro r _
  by_cases hr : r.id = id <;> simp [hr]

lemma updateStatusStmt_map_id (dbm : List Movie) (id : String) :
    (updateStatusStmt dbm id).map Movie.id = dbm.map Movie.id := by
  unfold updateStatusStmt
  rw [List.map_map]
  apply List.map_congr_left
  intro r _
  by_cases hr : r.id = id <;> simp [hr]

lemma queryMovieById_updateVotes (dbm : List Movie) (id : String) (v : Nat) :
    queryMovieById (updateVotesStmt dbm id v) id =
      (queryMovieById dbm id).map (fun r => { r with votes := v }) := by
  unfold queryMovieById updateVotesStmt
  rw [List.find?_map]
  have hp : ((fun r : Movie => decide (r.id = id)) ∘
      (fun r : Movie => if r.id = id then { r with votes := v } else r)) =
      fun r : Movie => decide (r.id = id) := by
    funext r
    by_cases hr : r.id = id <;> simp [hr]
  rw [hp]
  rcases hf : dbm.find? (fun r => decide (r.id = id)) with _ | r
  · rw [hf]
    simp
  · rw [hf]
    have : r.id = id := by simpa using List.find?_some hf
    simp [this]

lemma queryMovieById_updateStatus (dbm : List Movie) (id : String) :
    queryMovieById (updateStatusStmt dbm id) id =
      (queryMovieById dbm id).map
        (fun r => { r with status := MStatus.winner, votes := r.votes + 1 }) := by
  unfold queryMovieById updateStatusStmt
  rw [List.find?_map]
  have hp : ((fun r : Movie => decide (r.id = id)) ∘
      (fun r : Movie => if r.id = id then
        { r with status := MStatus.winner, votes := r.votes + 1 } else r)) =
      fun r : Movie => decide (r.id = id) := by
    funext r
    by_cases hr : r.id = id <;> simp [hr]
  rw [hp]
  rcases hf : dbm.find? (fun r => decide (r.id = id)) with _ | r
  · rw [hf]
    simp
  · rw [hf]
    have : r.id = id := by simpa using List.find?_some hf
    simp [this]

/-! ### Characterization of incrementVote -/

/-- incrementVote returns null, mutating nothing but the id cache, when
the id is absent or the row is not active. -/
lemma dbIncrementVote_null {st : SysState} {id : String} (now : Nat) (ok : Bool)
    (h : Inv st)
    (hq : ∀ m, queryMovieById st.dbm id = some m → ¬ m.status = MStatus.active) :
    dbIncrementVoteF st id now ok = (Except.ok none, (dbGetMovieById st id).2) := by
  rcases dbGetMovieById_spec st id h with ⟨c2, heq, -, -, -, -⟩
  rcases hqq : queryMovieById st.dbm id with _ | m
  · rw [hqq] at heq
    simp only [dbIncrementVoteF, heq]
  · rw [hqq] at heq
    simp only [dbIncrementVoteF, heq]
    rw [if_neg (hq m hqq)]

/-- incrementVote on an active row below the threshold: the row gets
the incremented absolute count, the movie caches are invalidated. -/
lemma dbIncrementVote_plain {st : SysState} {id : String} (now : Nat) (ok : Bool)
    (h : Inv st) {m : Movie} (hq : queryMovieById st.dbm id = some m)
    (hact : m.status = MStatus.active) (hv : m.votes + 1 < 10) :
    dbIncrementVoteF st id now ok =
      (Except.ok (some { m with votes := m.votes + 1 }),
       { dbm := updateVotesStmt st.dbm id (m.votes + 1), dbw := st.dbw,
         nextWinnerId := st.nextWinnerId, activeCache := none,
         winnersCache := st.winnersCache, idCache := [] }) := by
  rcases dbGetMovieById_spec st id h with ⟨c2, heq, -, -, -, -⟩
  rw [hq] at heq
  simp only [dbIncrementVoteF, heq]
  rw [if_pos hact, if_neg (by omega)]
  rfl

/-- incrementVote on an active row at the threshold promotes: the row
is updated to winner with the incremented count, the winner record is
appended with that final count, and every cache is invalidated. -/
lemma dbIncrementVote_promote {st : SysState} {id : String} (now : Nat)
    (h : Inv st) {m : Movie} (hq : queryMovieById st.dbm id = some m)
    (hact : m.status = MStatus.active) (hv : 10 ≤ m.votes + 1) :
    dbIncrementVoteF st id now true =
      (Except.ok (some { m with votes := m.votes + 1, status := MStatus.winner }),
       { dbm := updateStatusStmt st.dbm id,
         dbw := st.dbw ++
           [(⟨st.nextWinnerId, m.id, m.title, m.year, m.poster, m.votes + 1, now⟩ : Winner)],
         nextWinnerId := st.nextWinnerId + 1, activeCache := none,
         winnersCache := none, idCache := [] }) := by
  rcases dbGetMovieById_spec st id h with ⟨c2, heq, -, hk, -, hsz⟩
  rw [hq] at heq
  have hst1 : (dbGetMovieById st id).2 =
      { st with idCache := c2 ++ [(id, some m)] } := by rw [heq]
  simp only [dbIncrementVoteF, heq]
  rw [if_pos hact, if_pos (by omega)]
  have hstable : dbGetMovieById { st with idCache := c2 ++ [(id, some m)] } id =
      (some m, { st with idCache := c2 ++ [(id, some m)] }) := by
    have := dbGetMovieById_stable { st with idCache := c2 ++ [(id, some m)] } id c2
      (by simp only [hq]) hk (by simpa using by omega)
    rw [hq] at this
    exact this
  simp only [declareWinnerF, hstable]
  rfl

/-! ### Invariant preservation -/

lemma nodup_concat_key {l : List String} {k : String} (h : l.Nodup) (hk : k ∉ l) :
    (l ++ [k]).Nodup := by
  rw [List.nodup_append]
  refine ⟨h, List.nodup_singleton k, ?_⟩
  intro a ha hb
  simp only [List.mem_singleton] at hb
  subst hb
  exact hk ha

lemma mem_queryMovieById {dbm : List Movie} {id : String} {m : Movie}
    (h : queryMovieById dbm id = some m) : m ∈ dbm ∧ m.id = id := by
  unfold queryMovieById at h
  exact ⟨List.mem_of_find?_eq_some h, by simpa using List.find?_some h⟩

lemma queryMovieById_eq_none {dbm : List Movie} {id : String}
    (h : queryMovieById dbm id = none) : ∀ r ∈ dbm, ¬ r.id = id := by
  unfold queryMovieById at h
  rw [List.find?_eq_none] at h
  intro r hr
  simpa using h r hr

lemma inv_dbGetMovieById {st : SysState} (id : String) (h : Inv st) :
    Inv (dbGetMovieById st id).2 := by
  rcases dbGetMovieById_spec st id h with ⟨c2, heq, hsub, hk, hnd, hsz⟩
  rw [heq]
  refine ⟨h.idsNodup, h.activeLe9, h.winnersFinal10, h.cacheActive, h.cacheWinners, ?_, ?_, ?_⟩
  · intro k v hmem
    rcases List.mem_append.mp hmem with hin | hnew
    · exact h.cacheById k v (hsub _ hin)
    · simp only [List.mem_singleton, Prod.mk.injEq] at hnew
      rw [hnew.1, hnew.2]
  · rw [List.map_append]
    exact nodup_concat_key hnd (by simpa using hk)
  · simp only [List.length_append, List.length_cons, List.length_nil]
    omega

lemma inv_dbGetAllActiveMovies {st : SysState} (h : Inv st) :
    Inv (dbGetAllActiveMovies st).2 := by
  rw [dbGetAllActiveMovies_snd st]
  refine ⟨h.idsNodup, h.activeLe9, h.winnersFinal10, ?_, h.cacheWinners,
    h.cacheById, h.cacheKeys, h.cacheSize⟩
  intro l hl
  simp only [Option.some.injEq] at hl
  rw [← hl, dbGetAllActiveMovies_fst h]

lemma inv_dbGetAllWinners {st : SysState} (h : Inv st) :
    Inv (dbGetAllWinners st).2 := by
  rw [dbGetAllWinners_snd st]
  refine ⟨h.idsNodup, h.activeLe9, h.winnersFinal10, h.cacheActive, ?_,
    h.cacheById, h.cacheKeys, h.cacheSize⟩
  intro l hl
  simp only [Option.some.injEq] at hl
  rw [← hl, dbGetAllWinners_fst h]

lemma mem_updateVotesStmt {dbm : List Movie} {id : String} {v : Nat} {x : Movie}
    (h : x ∈ updateVotesStmt dbm id v) :
    ∃ r ∈ dbm, x = if r.id = id then { r with votes := v } else r := by
  rcases List.mem_map.mp h with ⟨r, hr, hrx⟩
  exact ⟨r, hr, hrx.symm⟩

lemma mem_updateStatusStmt {dbm : List Movie} {id : String} {x : Movie}
    (h : x ∈ updateStatusStmt dbm id) :
    ∃ r ∈ dbm, x = if r.id = id then
      { r with status := MStatus.winner, votes := r.votes + 1 } else r := by
  rcases List.mem_map.mp h with ⟨r, hr, hrx⟩
  exact ⟨r, hr, hrx.symm⟩

lemma inv_dbIncrementVote {st : SysState} (id : String) (now : Nat) (h : Inv st) :
    Inv (dbIncrementVoteF st id now true).2 := by
  rcases hq : queryMovieById st.dbm id with _ | m
  · rw [dbIncrementVote_null now true h (by intro m hm; rw [hq] at hm; cases hm)]
    exact inv_dbGetMovieById id h
  · by_cases hact : m.status = MStatus.active
    · by_cases hv : m.votes + 1 < 10
      · rw [dbIncrementVote_plain now true h hq hact hv]
        refine ⟨?_, ?_, h.winnersFinal10, ?_, h.cacheWinners, ?_, ?_, ?_⟩
        · rw [updateVotesStmt_map_id]; exact h.idsNodup
        · intro x hx hxact
          rcases mem_updateVotesStmt hx with ⟨r, hr, hrx⟩
          by_cases hrid : r.id = id
          · rw [hrx, if_pos hrid]
            show m.votes + 1 ≤ 9
            omega
          · rw [hrx, if_neg hrid]
            rw [hrx, if_neg hrid] at hxact
            exact h.activeLe9 r hr hxact
        · intro l hl; cases hl
        · intro k v hkv; cases hkv
        · simp
        · simp
      · rw [dbIncrementVote_promote now h hq hact (by omega)]
        have hm9 : m.votes = 9 := by
          have := h.activeLe9 m (mem_queryMovieById hq).1 hact
          omega
        refine ⟨?_, ?_, ?_, ?_, ?_, ?_, ?_, ?_⟩
        · rw [updateStatusStmt_map_id]; exact h.idsNodup
        · intro x hx hxact
          rcases mem_updateStatusStmt hx with ⟨r, hr, hrx⟩
          by_cases hrid : r.id = id
          · rw [hrx, if_pos hrid] at hxact; cases hxact
          · rw [hrx, if_neg hrid]
            rw [hrx, if_neg hrid] at hxact
            exact h.activeLe9 r hr hxact
        · intro w hw
          rcases List.mem_append.mp hw with hold | hnew
          · exact h.winnersFinal10 w hold
          · simp only [List.mem_singleton] at hnew
            rw [hnew]
            simp [hm9]
        · intro l hl; cases hl
        · intro l hl; cases hl
        · intro k v hkv; cases hkv
        · simp
        · simp
    · rw [dbIncrementVote_null now true h
        (by intro x hx; rw [hq] at hx; injection hx with hx; rw [← hx]; exact hact)]
      exact inv_dbGetMovieById id h

lemma dbAddMovie_new {st : SysState} {id : String} (title year poster : String)
    (now : Nat) (hq : queryMovieById st.dbm id = none) :
    dbAddMovie st id title year poster now =
      (Except.ok (⟨id, title, year, poster, 0, now, MStatus.active⟩ : Movie),
       { dbm := st.dbm ++ [(⟨id, title, year, poster, 0, now, MStatus.active⟩ : Movie)],
         dbw := st.dbw, nextWinnerId := st.nextWinnerId,
         activeCache := none, winnersCache := st.winnersCache, idCache := [] }) := by
  have hany : st.dbm.any (fun r => decide (r.id = id)) = false := by
    rw [List.any_eq_false]
    intro r hr
    simpa using queryMovieById_eq_none hq r hr
  simp only [dbAddMovie, hany]
  rfl

lemma inv_dbAddMovie {st : SysState} (id title year poster : String) (now : Nat)
    (h : Inv st) : Inv (dbAddMovie st id title year poster now).2 := by
  rcases hany : st.dbm.any (fun r => decide (r.id = id)) with _ | _
  · have hq : queryMovieById st.dbm id = none := by
      unfold queryMovieById
      rw [List.find?_eq_none]
      rw [List.any_eq_false] at hany
      exact hany
    rw [dbAddMovie_new title year poster now hq]
    refine ⟨?_, ?_, h.winnersFinal10, ?_, h.cacheWinners, ?_, ?_, ?_⟩
    · rw [List.map_append]
      refine nodup_concat_key h.idsNodup ?_
      intro hmem
      rcases List.mem_map.mp hmem with ⟨r, hr, hrid⟩
      exact queryMovieById_eq_none hq r hr hrid
    · intro x hx hxact
      rcases List.mem_append.mp hx with hold | hnew
      · exact h.activeLe9 x hold hxact
      · simp only [List.mem_singleton] at hnew
        rw [hnew]
        simp
    · intro l hl; cases hl
    · intro k v hkv; cases hkv
    · simp
    · simp
  · simp only [dbAddMovie, hany]
    exact h

lemma inv_dbDeleteMovie {st : SysState} (id : String) (h : Inv st) :
    Inv (dbDeleteMovie st id).2 := by
  have hsub : (st.dbm.filter
      (fun r => decide (¬ (r.id = id ∧ r.status = MStatus.active)))).Sublist st.dbm :=
    List.filter_sublist st.dbm
  have hnd : ((st.dbm.filter
      (fun r => decide (¬ (r.id = id ∧ r.status = MStatus.active)))).map Movie.id).Nodup :=
    (List.Sublist.map Movie.id hsub).nodup h.idsNodup
  rcases hhit : st.dbm.any (fun r => decide (r.id = id ∧ r.status = MStatus.active)) with _ | _
  · simp only [dbDeleteMovie, hhit]
    have hfix : st.dbm.filter
        (fun r => decide (¬ (r.id = id ∧ r.status = MStatus.active))) = st.dbm := by
      rw [List.filter_eq_self]
      intro r hr
      rw [List.any_eq_false] at hhit
      have hh := hhit r hr
      simp only [decide_eq_true_eq] at hh ⊢
      tauto
    refine ⟨?_, ?_, h.winnersFinal10, ?_, ?_, ?_, h.cacheKeys, h.cacheSize⟩ <;>
      simp only [hfix]
    · exact h.idsNodup
    · exact h.activeLe9
    · exact h.cacheActive
    · exact h.cacheWinners
    · exact h.cacheById
  · simp only [dbDeleteMovie, hhit]
    refine ⟨hnd, ?_, h.winnersFinal10, ?_, h.cacheWinners, ?_, ?_, ?_⟩
    · intro x hx hxact
      exact h.activeLe9 x (hsub.subset hx) hxact
    · intro l hl; cases hl
    · intro k v hkv; cases hkv
    · simp [invalidateCache]
    · simp [invalidateCache]

lemma inv_dbClearAllMovies {st : SysState} (h : Inv st) : Inv (dbClearAllMovies st) := by
  refine ⟨?_, ?_, h.winnersFinal10, ?_, h.cacheWinners, ?_, ?_, ?_⟩
  · simp [dbClearAllMovies, invalidateCache]
  · intro x hx; cases hx
  · intro l hl; cases hl
  · intro k v hkv; cases hkv
  · simp [dbClearAllMovies, invalidateCache]
  · simp [dbClearAllMovies, invalidateCache]

lemma inv_dbClearAllWinners {st : SysState} (h : Inv st) : Inv (dbClearAllWinners st) := by
  refine ⟨h.idsNodup, h.activeLe9, ?_, h.cacheActive, ?_, h.cacheById, h.cacheKeys, h.cacheSize⟩
  · intro w hw; cases hw
  · intro l hl; cases hl

lemma inv_castVoteR {st : SysState} (id : String) (now : Nat) (h : Inv st) :
    Inv (castVoteR st id now).2 := by
  unfold castVoteR dbIncrementVote
  have h1 : Inv (dbIncrementVoteF st id now true).2 := inv_dbIncrementVote id now h
  rcases hres : dbIncrementVoteF st id now true with ⟨r, st1⟩
  rw [hres] at h1
  rcases r with e | ⟨_ | m⟩
  · exact h1
  · exact h1
  · show Inv (if m.status = MStatus.winner
        then (VoteResp.voted m true, (dbGetAllWinners st1).2)
        else (VoteResp.voted m false, st1)).2
    by_cases hw : m.status = MStatus.winner
    · rw [if_pos hw]
      exact inv_dbGetAllWinners h1
    · rw [if_neg hw]
      exact h1

lemma inv_addCandidateR {st : SysState} (id title year poster : String) (now : Nat)
    (h : Inv st) : Inv (addCandidateR st id title year poster now).2 := by
  unfold addCandidateR dbIncrementVote
  by_cases hval : id = "" ∨ title = "" ∨ year = "" ∨ poster = ""
  · rw [if_pos hval]
    exact h
  · rw [if_neg hval]
    split
    · rename_i m st1 hfetch
      have h1 : Inv st1 := by
        have hi := inv_dbGetMovieById id h
        rw [hfetch] at hi
        exact hi
      split
      · split
        · rename_i e st2 hres
          have h2 := inv_dbIncrementVote id now h1
          rw [hres] at h2
          exact h2
        · rename_i st2 hres
          have h2 := inv_dbIncrementVote id now h1
          rw [hres] at h2
          exact h2
        · rename_i um st2 hres
          have h2 := inv_dbIncrementVote id now h1
          rw [hres] at h2
          split
          · exact inv_dbGetAllWinners h2
          · exact h2
      · exact h1
    · rename_i st1 hfetch
      have h1 : Inv st1 := by
        have hi := inv_dbGetMovieById id h
        rw [hfetch] at hi
        exact hi
      split
      · rename_i m2 st2 hadd
        have h2 := inv_dbAddMovie id title year poster now h1
        rw [hadd] at h2
        exact h2
      · rename_i e st2 hadd
        have h2 := inv_dbAddMovie id title year poster now h1
        rw [hadd] at h2
        exact h2

lemma inv_initState : Inv initState := by
  refine ⟨?_, ?_, ?_, ?_, ?_, ?_, ?_, ?_⟩ <;> simp [initState]

lemma inv_applyOp {st : SysState} (op : Op) (h : Inv st) : Inv (applyOp st op) := by
  cases op with
  | add id title year poster now => exact inv_addCandidateR id title year poster now h
  | vote id now => exact inv_castVoteR id now h
  | del id => exact inv_dbDeleteMovie id h
  | clearActive => exact inv_dbClearAllMovies h
  | clearWinners => exact inv_dbClearAllWinners h
  | readActive => exact inv_dbGetAllActiveMovies h
  | readWinners => exact inv_dbGetAllWinners h
  | readById id => exact inv_dbGetMovieById id h

lemma inv_foldl : ∀ (ops : List Op) (st : SysState), Inv st →
    Inv (List.foldl applyOp st ops)
  | [], st, h => h
  | op :: ops, st, h => inv_foldl ops (applyOp st op) (inv_applyOp op h)

lemma reachable_inv {st : SysState} (h : Reachable st) : Inv st := by
  rcases h with ⟨ops, hops⟩
  rw [← hops]
  exact inv_foldl ops initState inv_initState

/-! ### Winner records stay backed by a winner row (no clearActive) -/

lemma nodup_id_unique {dbm : List Movie} (hnd : (dbm.map Movie.id).Nodup)
    {a b : Movie} (ha : a ∈ dbm) (hb : b ∈ dbm) (hid : a.id = b.id) : a = b :=
  List.inj_on_of_nodup_map hnd ha hb hid

lemma dbGetMovieById_frame (st : SysState) (id : String) :
    (dbGetMovieById st id).2.dbm = st.dbm ∧ (dbGetMovieById st id).2.dbw = st.dbw ∧
    (dbGetMovieById st id).2.activeCache = st.activeCache ∧
    (dbGetMovieById st id).2.winnersCache = st.winnersCache := by
  unfold dbGetMovieById
  rcases hl : lruGet st.idCache id with ⟨_ | ⟨_ | m⟩, c1⟩ <;> simp

lemma wb_of_frame {st st1 : SysState} (hm : st1.dbm = st.dbm) (hw : st1.dbw = st.dbw)
    (h : WinnersBacked st) : WinnersBacked st1 := by
  intro w hmem
  rw [hw] at hmem
  rcases h w hmem with ⟨m, hmm, hmid, hmst⟩
  exact ⟨m, by rw [hm]; exact hmm, hmid, hmst⟩

lemma wb_dbIncrementVote {st : SysState} (id : String) (now : Nat)
    (h : Inv st) (hw : WinnersBacked st) :
    WinnersBacked (dbIncrementVoteF st id now true).2 := by
  rcases hq : queryMovieById st.dbm id with _ | m
  · rw [dbIncrementVote_null now true h (by intro x hx; rw [hq] at hx; cases hx)]
    exact wb_of_frame (dbGetMovieById_frame st id).1 (dbGetMovieById_frame st id).2.1 hw
  · by_cases hact : m.status = MStatus.active
    · have hmmem := (mem_queryMovieById hq).1
      have hmid := (mem_queryMovieById hq).2
      by_cases hv : m.votes + 1 < 10
      · rw [dbIncrementVote_plain now true h hq hact hv]
        intro w hmem
        rcases hw w hmem with ⟨m1, hm1, hid1, hst1⟩
        have hne : ¬ m1.id = id := by
          intro heq
          have : m1 = m := nodup_id_unique h.idsNodup hm1 hmmem (by rw [heq, hmid])
          rw [this, hact] at hst1
          cases hst1
        refine ⟨m1, ?_, hid1, hst1⟩
        have : (if m1.id = id then { m1 with votes := m.votes + 1 } else m1) = m1 := by
          rw [if_neg hne]
        rw [← this]
        exact List.mem_map_of_mem _ hm1
      · rw [dbIncrementVote_promote now h hq hact (by omega)]
        intro w hmem
        rcases List.mem_append.mp hmem with hold | hnew
        · rcases hw w hold with ⟨m1, hm1, hid1, hst1⟩
          have hne : ¬ m1.id = id := by
            intro heq
            have : m1 = m := nodup_id_unique h.idsNodup hm1 hmmem (by rw [heq, hmid])
            rw [this, hact] at hst1
            cases hst1
          refine ⟨m1, ?_, hid1, hst1⟩
          have : (if m1.id = id then
              { m1 with status := MStatus.winner, votes := m1.votes + 1 } else m1) = m1 := by
            rw [if_neg hne]
          rw [← this]
          exact List.mem_map_of_mem _ hm1
        · simp only [List.mem_singleton] at hnew
          subst hnew
          refine ⟨{ m with status := MStatus.winner, votes := m.votes + 1 }, ?_, ?_, rfl⟩
          · have : (if m.id = id then
                { m with status := MStatus.winner, votes := m.votes + 1 } else m) =
                { m with status := MStatus.winner, votes := m.votes + 1 } := by
              rw [if_pos hmid]
            rw [← this]
            exact List.mem_map_of_mem _ hmmem
          · rfl
    · rw [dbIncrementVote_null now true h
        (by intro x hx; rw [hq] at hx; injection hx with hx; rw [← hx]; exact hact)]
      exact wb_of_frame (dbGetMovieById_frame st id).1 (dbGetMovieById_frame st id).2.1 hw

lemma wb_dbAddMovie {st : SysState} (id title year poster : String) (now : Nat)
    (hw : WinnersBacked st) :
    WinnersBacked (dbAddMovie st id title year poster now).2 := by
  unfold dbAddMovie
  split
  · exact hw
  · intro w hmem
    rcases hw w hmem with ⟨m1, hm1, hid1, hst1⟩
    exact ⟨m1, List.mem_append_left _ hm1, hid1, hst1⟩

lemma wb_dbDeleteMovie {st : SysState} (id : String) (hw : WinnersBacked st) :
    WinnersBacked (dbDeleteMovie st id).2 := by
  have hcore : ∀ w ∈ st.dbw, ∃ m1 ∈ st.dbm.filter
      (fun r => decide (¬ (r.id = id ∧ r.status = MStatus.active))),
      m1.id = w.movieId ∧ m1.status = MStatus.winner := by
    intro w hmem
    rcases hw w hmem with ⟨m1, hm1, hid1, hst1⟩
    refine ⟨m1, ?_, hid1, hst1⟩
    rw [List.mem_filter]
    refine ⟨hm1, ?_⟩
    simp only [decide_eq_true_eq]
    intro hand
    rw [hand.2] at hst1
    cases hst1
  rcases hhit : st.dbm.any (fun r => decide (r.id = id ∧ r.status = MStatus.active)) with _ | _ <;>
    simp only [dbDeleteMovie, hhit] <;>
    exact fun w hmem => hcore w hmem

lemma wb_dbClearAllWinners {st : SysState} (hw : WinnersBacked st) :
    WinnersBacked (dbClearAllWinners st) := by
  intro w hmem
  cases hmem

lemma wb_castVoteR {st : SysState} (id : String) (now : Nat)
    (h : Inv st) (hw : WinnersBacked st) : WinnersBacked (castVoteR st id now).2 := by
  unfold castVoteR dbIncrementVote
  have h1 := wb_dbIncrementVote id now h hw
  split
  · rename_i e st1 hres
    rw [hres] at h1
    exact h1
  · rename_i st1 hres
    rw [hres] at h1
    exact h1
  · rename_i m st1 hres
    rw [hres] at h1
    split
    · rw [dbGetAllWinners_snd st1]
      exact wb_of_frame rfl rfl h1
    · exact h1

lemma wb_addCandidateR {st : SysState} (id title year poster : String) (now : Nat)
    (h : Inv st) (hw : WinnersBacked st) :
    WinnersBacked (addCandidateR st id title year poster now).2 := by
  unfold addCandidateR dbIncrementVote
  split
  · exact hw
  · have hwfetch : WinnersBacked (dbGetMovieById st id).2 :=
      wb_of_frame (dbGetMovieById_frame st id).1 (dbGetMovieById_frame st id).2.1 hw
    have hifetch : Inv (dbGetMovieById st id).2 := inv_dbGetMovieById id h
    split
    · rename_i m st1 hfetch
      rw [hfetch] at hwfetch hifetch
      split
      · have h1 := wb_dbIncrementVote id now hifetch hwfetch
        split
        · rename_i e st2 hres
          rw [hres] at h1
          exact h1
        · rename_i st2 hres
          rw [hres] at h1
          exact h1
        · rename_i um st2 hres
          rw [hres] at h1
          split
          · rw [dbGetAllWinners_snd st2]
            exact wb_of_frame rfl rfl h1
          · exact h1
      · exact hwfetch
    · rename_i st1 hfetch
      rw [hfetch] at hwfetch
      have h1 := wb_dbAddMovie id title year poster now hwfetch
      split
      · rename_i m2 st2 hadd
        rw [hadd] at h1
        exact h1
      · rename_i e st2 hadd
        rw [hadd] at h1
        exact h1

lemma wb_applyOp {st : SysState} {op : Op} (hop : ¬ op = Op.clearActive)
    (h : Inv st) (hw : WinnersBacked st) : WinnersBacked (applyOp st op) := by
  cases op with
  | add id title year poster now => exact wb_addCandidateR id title year poster now h hw
  | vote id now => exact wb_castVoteR id now h hw
  | del id => exact wb_dbDeleteMovie id hw
  | clearActive => exact absurd rfl hop
  | clearWinners => exact wb_dbClearAllWinners hw
  | readActive =>
    show WinnersBacked (dbGetAllActiveMovies st).2
    rw [dbGetAllActiveMovies_snd st]
    exact wb_of_frame rfl rfl hw
  | readWinners =>
    show WinnersBacked (dbGetAllWinners st).2
    rw [dbGetAllWinners_snd st]
    exact wb_of_frame rfl rfl hw
  | readById id =>
    exact wb_of_frame (dbGetMovieById_frame st id).1 (dbGetMovieById_frame st id).2.1 hw

lemma wb_foldl : ∀ (ops : List Op) (st : SysState),
    (∀ op ∈ ops, ¬ op = Op.clearActive) → Inv st → WinnersBacked st →
    WinnersBacked (List.foldl applyOp st ops)
  | [], _, _, _, hw => hw
  | op :: ops, st, hops, h, hw =>
    wb_foldl ops (applyOp st op)
      (fun o ho => hops o (List.mem_cons_of_mem op ho))
      (inv_applyOp op h)
      (wb_applyOp (hops op (List.mem_cons_self op ops)) h hw)

/-! ### Route-level characterizations -/

/-- Re-fetching right after a fetch changes nothing, so incrementVote
started from the post-fetch state coincides with incrementVote from the
original state. -/
lemma incrementVote_fetch_absorb {st : SysState} (id : String) (now : Nat) (h : Inv st) :
    dbIncrementVoteF (dbGetMovieById st id).2 id now true =
      dbIncrementVoteF st id now true := by
  rcases dbGetMovieById_spec st id h with ⟨c2, heq, hsub, hk, hnd, hsz⟩
  have hst1 : (dbGetMovieById st id).2 =
      { st with idCache := c2 ++ [(id, queryMovieById st.dbm id)] } := by rw [heq]
  have hstable : dbGetMovieById
      { st with idCache := c2 ++ [(id, queryMovieById st.dbm id)] } id =
      (queryMovieById st.dbm id,
       { st with idCache := c2 ++ [(id, queryMovieById st.dbm id)] }) := by
    refine dbGetMovieById_stable _ id c2 rfl hk ?_
    simp only [List.length_append, List.length_cons, List.length_nil]
    omega
  rw [hst1]
  unfold dbIncrementVoteF
  rw [hstable, heq]

lemma castVoteR_notFound {st : SysState} (id : String) (now : Nat) (h : Inv st)
    (hq : ∀ m, queryMovieById st.dbm id = some m → ¬ m.status = MStatus.active) :
    castVoteR st id now =
      (VoteResp.notFound "Movie not found or already won", (dbGetMovieById st id).2) := by
  unfold castVoteR dbIncrementVote
  rw [dbIncrementVote_null now true h hq]

lemma castVoteR_plain {st : SysState} {id : String} (now : Nat) (h : Inv st)
    {m : Movie} (hq : queryMovieById st.dbm id = some m)
    (hact : m.status = MStatus.active) (hv : m.votes + 1 < 10) :
    castVoteR st id now =
      (VoteResp.voted { m with votes := m.votes + 1 } false,
       { dbm := updateVotesStmt st.dbm id (m.votes + 1), dbw := st.dbw,
         nextWinnerId := st.nextWinnerId, activeCache := none,
         winnersCache := st.winnersCache, idCache := [] }) := by
  unfold castVoteR dbIncrementVote
  rw [dbIncrementVote_plain now true h hq hact hv]
  have hst : ({ m with votes := m.votes + 1 } : Movie).status = MStatus.active := hact
  simp [hst, hact]

lemma castVoteR_promote {st : SysState} {id : String} (now : Nat) (h : Inv st)
    {m : Movie} (hq : queryMovieById st.dbm id = some m)
    (hact : m.status = MStatus.active) (hv : 10 ≤ m.votes + 1) :
    castVoteR st id now =
      (VoteResp.voted { m with votes := m.votes + 1, status := MStatus.winner } true,
       { dbm := updateStatusStmt st.dbm id,
         dbw := st.dbw ++
           [(⟨st.nextWinnerId, m.id, m.title, m.year, m.poster, m.votes + 1, now⟩ : Winner)],
         nextWinnerId := st.nextWinnerId + 1, activeCache := none,
         winnersCache := some (queryWinners (st.dbw ++
           [(⟨st.nextWinnerId, m.id, m.title, m.year, m.poster, m.votes + 1, now⟩ : Winner)])),
         idCache := [] }) := by
  unfold castVoteR dbIncrementVote
  rw [dbIncrementVote_promote now h hq hact hv]
  simp [dbGetAllWinners]

lemma addCandidateR_conflict {st : SysState} {id : String}
    (title year poster : String) (now : Nat) (h : Inv st)
    {m : Movie} (hq : queryMovieById st.dbm id = some m)
    (hwin : m.status = MStatus.winner)
    (hval : ¬ (id = "" ∨ title = "" ∨ year = "" ∨ poster = "")) :
    addCandidateR st id title year poster now =
      (AddResp.conflict, (dbGetMovieById st id).2) := by
  rcases dbGetMovieById_spec st id h with ⟨c2, heq, -, -, -, -⟩
  rw [hq] at heq
  unfold addCandidateR
  rw [if_neg hval]
  simp only [heq]
  simp [hwin]

/-- The existing-active branch of the add handler performs exactly the
vote transition: same result movie, same winner flag, same final state,
and the response constructor is the distinguishing updated signal. -/
lemma addCandidateR_existing_active {st : SysState} {id : String}
    (title year poster : String) (now : Nat) (h : Inv st)
    {m : Movie} (hq : queryMovieById st.dbm id = some m)
    (hact : m.status = MStatus.active)
    (hval : ¬ (id = "" ∨ title = "" ∨ year = "" ∨ poster = "")) :
    ∃ um iw st2, castVoteR st id now = (VoteResp.voted um iw, st2) ∧
      addCandidateR st id title year poster now = (AddResp.votedExisting um iw, st2) ∧
      um.votes = m.votes + 1 := by
  rcases dbGetMovieById_spec st id h with ⟨c2, heq, -, -, -, -⟩
  have heqm := heq
  rw [hq] at heqm
  by_cases hv : m.votes + 1 < 10
  · refine ⟨{ m with votes := m.votes + 1 }, false, _, castVoteR_plain now h hq hact hv, ?_, rfl⟩
    unfold addCandidateR
    rw [if_neg hval]
    simp only [heqm]
    rw [if_pos hact]
    unfold dbIncrementVote
    rw [show ({ st with idCache := c2 ++ [(id, some m)] } : SysState) =
      (dbGetMovieById st id).2 from by rw [heqm]]
    rw [incrementVote_fetch_absorb id now h]
    rw [dbIncrementVote_plain now true h hq hact hv]
    have hst : ({ m with votes := m.votes + 1 } : Movie).status = MStatus.active := hact
    simp [hst, hact]
  · refine ⟨{ m with votes := m.votes + 1, status := MStatus.winner }, true, _,
      castVoteR_promote now h hq hact (by omega), ?_, rfl⟩
    unfold addCandidateR
    rw [if_neg hval]
    simp only [heqm]
    rw [if_pos hact]
    unfold dbIncrementVote
    rw [show ({ st with idCache := c2 ++ [(id, some m)] } : SysState) =
      (dbGetMovieById st id).2 from by rw [heqm]]
    rw [incrementVote_fetch_absorb id now h]
    rw [dbIncrementVote_promote now h hq hact (by omega)]
    simp [dbGetAllWinners]

/-- deleteMovie on a winner row deletes nothing and leaves the state
untouched. -/
lemma dbDeleteMovie_winner {st : SysState} {id : String} (h : Inv st)
    {m : Movie} (hq : queryMovieById st.dbm id = some m)
    (hwin : m.status = MStatus.winner) :
    dbDeleteMovie st id = (false, st) := by
  have hmm := mem_queryMovieById hq
  have hany : st.dbm.any (fun r => decide (r.id = id ∧ r.status = MStatus.active)) = false := by
    rw [List.any_eq_false]
    intro r hr
    simp only [decide_eq_true_eq]
    intro hand
    have : r = m := nodup_id_unique h.idsNodup hr hmm.1 (by rw [hand.1, hmm.2])
    rw [this, hwin] at hand
    cases hand.2
  have hfix : st.dbm.filter
      (fun r => decide (¬ (r.id = id ∧ r.status = MStatus.active))) = st.dbm := by
    rw [List.filter_eq_self]
    intro r hr
    simp only [decide_eq_true_eq]
    intro hand
    rw [List.any_eq_false] at hany
    have := hany r hr
    simp only [decide_eq_true_eq] at this
    exact this hand
  simp only [dbDeleteMovie, hany, hfix]
  rfl

lemma dbGetAllActiveMovies_congr {st st1 : SysState} (hdbm : st1.dbm = st.dbm)
    (hac : st1.activeCache = st.activeCache) :
    (dbGetAllActiveMovies st1).1 = (dbGetAllActiveMovies st).1 := by
  rcases hc : st.activeCache with _ | l <;>
    simp [dbGetAllActiveMovies, hdbm, hac, hc]

lemma dbGetAllWinners_congr {st st1 : SysState} (hdbw : st1.dbw = st.dbw)
    (hwc : st1.winnersCache = st.winnersCache) :
    (dbGetAllWinners st1).1 = (dbGetAllWinners st).1 := by
  rcases hc : st.winnersCache with _ | l <;>
    simp [dbGetAllWinners, hdbw, hwc, hc]

/-! ### The active-list query as a sorted filter -/

lemma queryAllActive_mem {dbm : List Movie} {x : Movie} :
    x ∈ queryAllActive dbm ↔ x ∈ dbm ∧ x.status = MStatus.active := by
  unfold queryAllActive
  rw [List.mem_insertionSort, List.mem_filter]
  simp

lemma queryAllActive_sorted (dbm : List Movie) :
    (queryAllActive dbm).Pairwise movieOrd :=
  List.sorted_insertionSort movieOrd _

lemma queryWinners_mem {dbw : List Winner} {w : Winner} :
    w ∈ queryWinners dbw ↔ w ∈ dbw := by
  unfold queryWinners
  rw [List.mem_insertionSort]

/-! ### Claim theorems -/

/-- C1: promotion happens exactly at the fixed threshold of 10: in
every reachable state an active row stores at most 9 votes (so no
active candidate ever shows a count above 10) and every stored winner
record has finalVotes 10; a vote on an active candidate with at most 8
votes returns an active candidate with the count incremented by 1 and
stores that count; a vote on an active candidate with 9 votes returns
a winner with count 10, stores the row as winner with count 10, and
appends a winner record with finalVotes 10. -/
theorem C1_threshold_promotion {st : SysState} (h : Reachable st) :
    (∀ m ∈ st.dbm, m.status = MStatus.active → m.votes ≤ 9) ∧
    (∀ w ∈ st.dbw, w.finalVotes = 10) ∧
    (∀ (id : String) (now : Nat) (m : Movie), queryMovieById st.dbm id = some m →
      m.status = MStatus.active → m.votes ≤ 8 →
      (castVoteR st id now).1 = VoteResp.voted { m with votes := m.votes + 1 } false ∧
      ({ m with votes := m.votes + 1 } : Movie).status = MStatus.active ∧
      queryMovieById (castVoteR st id now).2.dbm id =
        some { m with votes := m.votes + 1 }) ∧
    (∀ (id : String) (now : Nat) (m : Movie), queryMovieById st.dbm id = some m →
      m.status = MStatus.active → m.votes = 9 →
      (castVoteR st id now).1 =
        VoteResp.voted { m with votes := 10, status := MStatus.winner } true ∧
      queryMovieById (castVoteR st id now).2.dbm id =
        some { m with votes := 10, status := MStatus.winner } ∧
      (castVoteR st id now).2.dbw =
        st.dbw ++ [(⟨st.nextWinnerId, m.id, m.title, m.year, m.poster, 10, now⟩ : Winner)]) := by
  have hinv := reachable_inv h
  refine ⟨hinv.activeLe9, hinv.winnersFinal10, ?_, ?_⟩
  · intro id now m hq hact hv
    have hc := castVoteR_plain now hinv hq hact (by omega)
    refine ⟨by rw [hc], hact, ?_⟩
    rw [hc]
    show queryMovieById (updateVotesStmt st.dbm id (m.votes + 1)) id = _
    rw [queryMovieById_updateVotes, hq]
    rfl
  · intro id now m hq hact hv9
    have h10 : m.votes + 1 = 10 := by omega
    have hc := castVoteR_promote now hinv hq hact (by omega)
    rw [h10] at hc
    refine ⟨by rw [hc], ?_, by rw [hc]⟩
    rw [hc]
    show queryMovieById (updateStatusStmt st.dbm id) id = _
    rw [queryMovieById_updateStatus, hq]
    simp [h10]

/-- C1 witness: the tenth vote on the concrete nine-vote state returns
the promoted winner with count 10. -/
theorem C1_threshold_promotion_witness :
    (castVoteR st9 "m1" 2).1 =
      VoteResp.voted (⟨"m1", "T", "2000", "p", 10, 0, MStatus.winner⟩ : Movie) true := by
  have hr : Reachable st9 := ⟨voteTrace 9, rfl⟩
  exact ((C1_threshold_promotion hr).2.2.2 "m1" 2
    (⟨"m1", "T", "2000", "p", 9, 0, MStatus.active⟩ : Movie) rfl rfl rfl).1

/-- C2: the promote transition is not atomic in the code: declareWinner
runs the movies UPDATE and the winners INSERT as two separate
autocommitted statements with no transaction, so when the winners
INSERT fails on the threshold-reaching vote, the store is left with the
movies row already committed as winner with count 10 and no
corresponding WinnerRecord, contradicting the claim that the store is
then left unchanged. Evaluated on the concrete nine-vote state. -/
theorem C2_append_failure_partial_state :
    (dbIncrementVoteF st9 "m1" 2 false).1 = Except.error "winners insert failed" ∧
    queryMovieById (dbIncrementVoteF st9 "m1" 2 false).2.dbm "m1" =
      some (⟨"m1", "T", "2000", "p", 10, 0, MStatus.winner⟩ : Movie) ∧
    (dbIncrementVoteF st9 "m1" 2 false).2.dbw = [] :=
  ⟨rfl, rfl, rfl⟩

/-- C3 counterexample: clearAllMovies runs DELETE FROM movies, which
also deletes winner-status rows; re-adding the same identifier then
recreates it as active while its winner record is still in the ledger,
so the active list and the winners list are not disjoint in this
reachable state. -/
theorem C3_active_winner_disjoint_cex :
    ((dbGetAllActiveMovies (applyTrace clearReaddTrace)).1.map Movie.id).contains "m1" = true ∧
    ((dbGetAllWinners (applyTrace clearReaddTrace)).1.map Winner.movieId).contains "m1" = true := by
  decide

/-- C3 amended: in every state reachable without ClearActiveCandidates,
the identifiers of ListActiveCandidates and the movieIds of ListWinners
are disjoint. -/
theorem C3_active_winner_disjoint_amended (ops : List Op)
    (hnc : ∀ op ∈ ops, ¬ op = Op.clearActive) :
    ∀ m ∈ (dbGetAllActiveMovies (applyTrace ops)).1,
      ∀ w ∈ (dbGetAllWinners (applyTrace ops)).1, ¬ m.id = w.movieId := by
  have hinv : Inv (applyTrace ops) := inv_foldl ops initState inv_initState
  have hwb : WinnersBacked (applyTrace ops) :=
    wb_foldl ops initState hnc inv_initState (by intro w hw; cases hw)
  intro m hm w hw hid
  rw [dbGetAllActiveMovies_fst hinv] at hm
  rw [dbGetAllWinners_fst hinv] at hw
  rw [queryAllActive_mem] at hm
  rw [queryWinners_mem] at hw
  rcases hwb w hw with ⟨m2, hm2, hm2id, hm2win⟩
  have hmm : m = m2 := nodup_id_unique hinv.idsNodup hm.1 hm2 (by rw [hid, hm2id])
  have hact : m2.status = MStatus.active := by rw [← hmm]; exact hm.2
  rw [hm2win] at hact
  cases hact

/-- C3 witness: on the concrete no-clear trace with one winner and one
active candidate, the listed active id differs from the listed winner
movieId. -/
theorem C3_active_winner_disjoint_witness :
    ¬ (⟨"m2", "T", "2000", "p", 0, 20, MStatus.active⟩ : Movie).id =
      (⟨1, "m1", "T", "2000", "p", 10, 1⟩ : Winner).movieId :=
  C3_active_winner_disjoint_amended disjTrace (by decide)
    (⟨"m2", "T", "2000", "p", 0, 20, MStatus.active⟩ : Movie) (by decide)
    (⟨1, "m1", "T", "2000", "p", 10, 1⟩ : Winner) (by decide)

/-- C4: on an existing active candidate, AddCandidate performs exactly
the CastVote transition: same returned movie and winner flag, same
final state, the count goes up by exactly 1, and the response carries
the distinguishing updated signal rather than the created one. -/
theorem C4_add_existing_equals_vote {st : SysState} (h : Reachable st)
    {id : String} (title year poster : String) (now : Nat) {m : Movie}
    (hq : queryMovieById st.dbm id = some m) (hact : m.status = MStatus.active)
    (hval : ¬ (id = "" ∨ title = "" ∨ year = "" ∨ poster = "")) :
    ∃ um iw st2, castVoteR st id now = (VoteResp.voted um iw, st2) ∧
      addCandidateR st id title year poster now = (AddResp.votedExisting um iw, st2) ∧
      um.votes = m.votes + 1 ∧
      ∀ x, ¬ (addCandidateR st id title year poster now).1 = AddResp.created x := by
  rcases addCandidateR_existing_active title year poster now (reachable_inv h)
    hq hact hval with ⟨um, iw, st2, hcv, hadd, hvv⟩
  refine ⟨um, iw, st2, hcv, hadd, hvv, ?_⟩
  intro x
  rw [hadd]
  simp

/-- C4 witness: re-adding the single concrete active candidate votes it
from 0 to 1 with the same state as the vote route. -/
theorem C4_add_existing_equals_vote_witness :
    ∃ um iw st2, castVoteR (applyTrace (voteTrace 0)) "m1" 7 = (VoteResp.voted um iw, st2) ∧
      addCandidateR (applyTrace (voteTrace 0)) "m1" "T" "2000" "p" 7 =
        (AddResp.votedExisting um iw, st2) ∧
      um.votes = 1 ∧
      ∀ x, ¬ (addCandidateR (applyTrace (voteTrace 0)) "m1" "T" "2000" "p" 7).1 =
        AddResp.created x :=
  C4_add_existing_equals_vote ⟨voteTrace 0, rfl⟩ "T" "2000" "p" 7
    (show queryMovieById (applyTrace (voteTrace 0)).dbm "m1" =
      some (⟨"m1", "T", "2000", "p", 0, 0, MStatus.active⟩ : Movie) from rfl)
    rfl (by decide)

/-- C5: the vote route answers with the single not-found signal exactly
when the identifier is absent or the row is not active, the same
response value in both cases, and otherwise it returns a voted response
whose count is incremented by exactly 1. -/
theorem C5_vote_notFound_signal {st : SysState} (h : Reachable st)
    (id : String) (now : Nat) :
    ((castVoteR st id now).1 = VoteResp.notFound "Movie not found or already won" ↔
      (queryMovieById st.dbm id = none ∨
        ∃ m, queryMovieById st.dbm id = some m ∧ ¬ m.status = MStatus.active)) ∧
    (∀ m, queryMovieById st.dbm id = some m → m.status = MStatus.active →
      ∃ um iw, (castVoteR st id now).1 = VoteResp.voted um iw ∧
        um.votes = m.votes + 1) := by
  have hinv := reachable_inv h
  rcases hq : queryMovieById st.dbm id with _ | m
  · have hc := castVoteR_notFound id now hinv (by intro x hx; rw [hq] at hx; cases hx)
    constructor
    · rw [hc]
      simp
    · intro m hm
      cases hm
  · by_cases hact : m.status = MStatus.active
    · by_cases hv : m.votes + 1 < 10
      · have hc := castVoteR_plain now hinv hq hact hv
        constructor
        · rw [hc]
          simp [hact]
        · intro m2 hm2 hact2
          injection hm2 with hm2
          subst hm2
          exact ⟨{ m with votes := m.votes + 1 }, false, by rw [hc], rfl⟩
      · have hc := castVoteR_promote now hinv hq hact (by omega)
        constructor
        · rw [hc]
          simp [hact]
        · intro m2 hm2 hact2
          injection hm2 with hm2
          subst hm2
          exact ⟨{ m with votes := m.votes + 1, status := MStatus.winner }, true,
            by rw [hc], rfl⟩
    · have hc := castVoteR_notFound id now hinv
        (by intro x hx; rw [hq] at hx; injection hx with hx; rw [← hx]; exact hact)
      constructor
      · rw [hc]
        simp [hact]
      · intro m2 hm2 hact2
        injection hm2 with hm2
        subst hm2
        exact absurd hact2 hact

/-- C5 witness: a vote on a missing identifier in a concrete reachable
state yields the not-found response. -/
theorem C5_vote_notFound_signal_witness :
    (castVoteR (applyTrace (voteTrace 0)) "zzz" 5).1 =
      VoteResp.notFound "Movie not found or already won" :=
  ((C5_vote_notFound_signal ⟨voteTrace 0, rfl⟩ "zzz" 5).1).mpr (Or.inl rfl)

/-- C6: re-adding an identifier whose row is a winner answers 409
conflict and leaves both tables and both list results unchanged. -/
theorem C6_readd_winner_conflict {st : SysState} (h : Reachable st)
    {id : String} (title year poster : String) (now : Nat) {m : Movie}
    (hq : queryMovieById st.dbm id = some m) (hwin : m.status = MStatus.winner)
    (hval : ¬ (id = "" ∨ title = "" ∨ year = "" ∨ poster = "")) :
    (addCandidateR st id title year poster now).1 = AddResp.conflict ∧
    (addCandidateR st id title year poster now).2.dbm = st.dbm ∧
    (addCandidateR st id title year poster now).2.dbw = st.dbw ∧
    (dbGetAllActiveMovies (addCandidateR st id title year poster now).2).1 =
      (dbGetAllActiveMovies st).1 ∧
    (dbGetAllWinners (addCandidateR st id title year poster now).2).1 =
      (dbGetAllWinners st).1 := by
  have hinv := reachable_inv h
  have hc := addCandidateR_conflict title year poster now hinv hq hwin hval
  have hf := dbGetMovieById_frame st id
  refine ⟨by rw [hc], ?_, ?_, ?_, ?_⟩
  · rw [hc]; exact hf.1
  · rw [hc]; exact hf.2.1
  · rw [hc]; exact dbGetAllActiveMovies_congr hf.1 hf.2.2.1
  · rw [hc]; exact dbGetAllWinners_congr hf.2.1 hf.2.2.2

/-- C6 witness: re-adding the concrete promoted winner answers 409. -/
theorem C6_readd_winner_conflict_witness :
    (addCandidateR (applyTrace (voteTrace 10)) "m1" "T" "2000" "p" 20).1 =
      AddResp.conflict :=
  (C6_readd_winner_conflict ⟨voteTrace 10, rfl⟩ "T" "2000" "p" 20
    (show queryMovieById (applyTrace (voteTrace 10)).dbm "m1" =
      some (⟨"m1", "T", "2000", "p", 10, 0, MStatus.winner⟩ : Movie) from rfl)
    rfl (by decide)).1

/-- C7: the active list contains exactly the rows with status active,
and any candidate listed before another has strictly more votes or the
same votes and an addedAt that is not later. -/
theorem C7_listActive_membership_order {st : SysState} (h : Reachable st) :
    (∀ x : Movie, x ∈ (dbGetAllActiveMovies st).1 ↔
      x ∈ st.dbm ∧ x.status = MStatus.active) ∧
    (dbGetAllActiveMovies st).1.Pairwise
      (fun a b => a.votes > b.votes ∨ (a.votes = b.votes ∧ a.addedAt ≤ b.addedAt)) := by
  have hinv := reachable_inv h
  rw [dbGetAllActiveMovies_fst hinv]
  exact ⟨fun x => queryAllActive_mem, queryAllActive_sorted st.dbm⟩

/-- C7 witness: ordering of the concrete three-vote state. -/
theorem C7_listActive_membership_order_witness :
    (dbGetAllActiveMovies (applyTrace (voteTrace 3))).1.Pairwise
      (fun a b => a.votes > b.votes ∨ (a.votes = b.votes ∧ a.addedAt ≤ b.addedAt)) :=
  (C7_listActive_membership_order ⟨voteTrace 3, rfl⟩).2

/-- C8 counterexample: adding a fresh identifier clears the whole id
cache, including the entry of a row the mutation did not change, so
invalidation is not exactly the entries whose underlying rows changed:
the m1 row is identical before and after, yet its cached entry is
gone. -/
theorem C8_cache_invalidation_cex :
    lruLookup (applyTrace cachedReadTrace).idCache "m1" =
      some (some (⟨"m1", "T", "2000", "p", 0, 0, MStatus.active⟩ : Movie)) ∧
    queryMovieById (applyOp (applyTrace cachedReadTrace)
        (Op.add "m2" "T" "2000" "p" 3)).dbm "m1" =
      queryMovieById (applyTrace cachedReadTrace).dbm "m1" ∧
    lruLookup (applyOp (applyTrace cachedReadTrace)
        (Op.add "m2" "T" "2000" "p" 3)).idCache "m1" = none := by
  decide

/-- C8 amended: mutations invalidate at least the cache entries whose
underlying rows changed (possibly more), so the cache is transparent:
in every reachable state each of the three reads returns exactly the
direct database query result. -/
theorem C8_cache_transparent_amended {st : SysState} (h : Reachable st) (id : String) :
    (dbGetMovieById st id).1 = queryMovieById st.dbm id ∧
    (dbGetAllActiveMovies st).1 = queryAllActive st.dbm ∧
    (dbGetAllWinners st).1 = queryWinners st.dbw := by
  have hinv := reachable_inv h
  rcases dbGetMovieById_spec st id hinv with ⟨c2, heq, -, -, -, -⟩
  exact ⟨by rw [heq], dbGetAllActiveMovies_fst hinv, dbGetAllWinners_fst hinv⟩

/-- C8 witness: the cached read of the concrete state equals the direct
query. -/
theorem C8_cache_transparent_amended_witness :
    (dbGetMovieById (applyTrace cachedReadTrace) "m1").1 =
      queryMovieById (applyTrace cachedReadTrace).dbm "m1" :=
  (C8_cache_transparent_amended ⟨cachedReadTrace, rfl⟩ "m1").1

/-- C9: with a configured key and a non-empty query, a no-match
response yields the empty result with total 0 rather than an error; a
timeout yields the distinct timed-out error; a missing or empty key
yields the not-configured error before any request; a 401 yields the
invalid-key error; and the timeout error differs from both credential
errors, also in its message. -/
theorem C9_search_empty_and_distinct_errors {k q : String} (page : Nat)
    (resp : OMDbSearchResponse) (hk : ¬ k = "") (hq : ¬ (jsTrim q).length = 0)
    (hp : 0 < page) :
    (resp.response = "False" →
      searchMovies (some k) q page (UpstreamOutcome.ok resp) =
        Except.ok { results := [], totalResults := 0 }) ∧
    searchMovies (some k) q page UpstreamOutcome.timeout =
      Except.error SearchError.timedOut ∧
    (∀ msg, searchMovies (some k) q page (UpstreamOutcome.httpError 401 msg) =
      Except.error SearchError.invalidKey) ∧
    (∀ o, searchMovies none q page o = Except.error SearchError.notConfigured) ∧
    (∀ o, searchMovies (some "") q page o = Except.error SearchError.notConfigured) ∧
    ¬ SearchError.timedOut = SearchError.notConfigured ∧
    ¬ SearchError.timedOut = SearchError.invalidKey ∧
    ¬ SearchError.timedOut.message = SearchError.notConfigured.message ∧
    ¬ SearchError.timedOut.message = SearchError.invalidKey.message := by
  refine ⟨?_, ?_, ?_, ?_, ?_, by simp, by simp, by decide, by decide⟩
  · intro hresp
    simp only [searchMovies, if_neg hk, if_neg hq, if_pos hresp]
  · simp only [searchMovies, if_neg hk, if_neg hq]
  · intro msg
    simp only [searchMovies, if_neg hk, if_neg hq]
    simp
  · intro o
    rfl
  · intro o
    simp [searchMovies]

/-- C9 witness: a concrete timeout with a configured key and non-empty
query yields the timed-out error. -/
theorem C9_search_empty_and_distinct_errors_witness :
    searchMovies (some "key") "batman" 1 UpstreamOutcome.timeout =
      Except.error SearchError.timedOut :=
  (C9_search_empty_and_distinct_errors 1 (⟨"False", none, none⟩ : OMDbSearchResponse)
    (by decide) (by decide) (by decide)).2.1

/-- C10: clearAllWinners deletes only the winners table and its cache:
the movies table and the movie caches are untouched, and any winner row
still blocks AddCandidate with 409, still answers the vote route with
not-found, and still cannot be deleted. -/
theorem C10_clearWinners_frame {st : SysState} (h : Reachable st) :
    (dbClearAllWinners st).dbm = st.dbm ∧
    (dbClearAllWinners st).dbw = [] ∧
    (dbClearAllWinners st).activeCache = st.activeCache ∧
    (dbClearAllWinners st).idCache = st.idCache ∧
    ∀ (id : String) (m : Movie), queryMovieById st.dbm id = some m →
      m.status = MStatus.winner →
      (∀ title year poster now, ¬ (id = "" ∨ title = "" ∨ year = "" ∨ poster = "") →
        (addCandidateR (dbClearAllWinners st) id title year poster now).1 =
          AddResp.conflict) ∧
      (∀ now, (castVoteR (dbClearAllWinners st) id now).1 =
        VoteResp.notFound "Movie not found or already won") ∧
      (dbDeleteMovie (dbClearAllWinners st) id).1 = false := by
  have hinv := reachable_inv h
  have hinv2 : Inv (dbClearAllWinners st) := inv_dbClearAllWinners hinv
  refine ⟨rfl, rfl, rfl, rfl, ?_⟩
  intro id m hq hwin
  have hq2 : queryMovieById (dbClearAllWinners st).dbm id = some m := hq
  refine ⟨?_, ?_, ?_⟩
  · intro title year poster now hval
    rw [addCandidateR_conflict title year poster now hinv2 hq2 hwin hval]
  · intro now
    rw [castVoteR_notFound id now hinv2 ?_]
    intro x hx
    rw [hq2] at hx
    injection hx with hx
    rw [← hx, hwin]
    simp
  · rw [dbDeleteMovie_winner hinv2 hq2 hwin]

/-- C10 witness: after clearing the ledger of the concrete promoted
state, voting the past winner still answers not-found. -/
theorem C10_clearWinners_frame_witness :
    (dbClearAllWinners (applyTrace (voteTrace 10))).dbw = [] ∧
    (castVoteR (dbClearAllWinners (applyTrace (voteTrace 10))) "m1" 30).1 =
      VoteResp.notFound "Movie not found or already won" := by
  have hth := C10_clearWinners_frame
    (⟨voteTrace 10, rfl⟩ : Reachable (applyTrace (voteTrace 10)))
  exact ⟨hth.2.1, (hth.2.2.2.2 "m1"
    (⟨"m1", "T", "2000", "p", 10, 0, MStatus.winner⟩ : Movie) rfl rfl).2.1 30⟩

end MovieWeek
